import Mathlib

/-!
Verification of the issue-selection / PR-metadata assembly flow of
`pr-buddy.py`, together with the post-diff pipeline control flow
(empty-diff early exit, Gemini response handling, PR-draft extraction).

The Python source is shallowly embedded: Python strings become `String`,
Python ints become `Int`, JSON values become the `Json` inductive below,
fallible operations return `Option`, and process control flow (early
exits, fatal errors) is made explicit via the `PostDiffOutcome` type.
Python builtins used by the script (`str.strip`, `str.lstrip("#")`,
`str.split("|", 1)`, `str.splitlines`, `int(...)`) are modelled on ASCII
text below; `json.loads` is abstracted as a parameter
`loads : String → Option Json` (success returns the parsed value,
failure is `none`).
-/

namespace PrBuddy

/-- A JSON value, as produced by `resp.json()` / `json.loads` in the
script.  Numbers are modelled as integers (issue numbers and all values
relevant to the script are integral). -/
inductive Json where
  | null : Json
  | bool : Bool → Json
  | num : Int → Json
  | str : String → Json
  | arr : List Json → Json
  | obj : List (String × Json) → Json
deriving Repr

/-- A label attached to an issue, as delivered by the issue tracker:
either an object with an optional `name` field (`label.get("name")`
yields `none` when the field is absent) or a plain text name.
Mirrors `label.get("name") if isinstance(label, dict) else label`
(src/pr-buddy.py line 220). -/
inductive Label where
  | obj : Option String → Label
  | txt : String → Label
deriving Repr, DecidableEq

/-- An issue as returned by `gh issue list --json number,title,labels`
or the GitHub REST issues endpoint: at least `number`, `title`,
`labels`. -/
structure Issue where
  number : Int
  title : String
  labels : List Label
deriving Repr, DecidableEq

/-- Python whitespace (ASCII portion): the characters stripped by
`str.strip()`. -/
def isPySpace (c : Char) : Bool :=
  c = ' ' || c = '\t' || c = '\n' || c = '\r' || c.toNat = 11 || c.toNat = 12

/-- Python `str.strip()` on ASCII whitespace. -/
def pyStrip (s : String) : String :=
  String.mk (((s.data.dropWhile isPySpace).reverse.dropWhile isPySpace).reverse)

/-- Python `str.lstrip("#")`: drop every leading `#` character. -/
def lstripHash (s : String) : String :=
  String.mk (s.data.dropWhile (fun c => c = '#'))

/-- Does the line contain the `|` delimiter?  Mirrors
`if "|" in line` (src/pr-buddy.py line 203). -/
def hasPipe (line : String) : Bool :=
  line.data.contains '|'

/-- Python `line.split("|", 1)`: the text before the first `|` and the
text after it.  Only used on lines where `hasPipe` holds. -/
def split1Pipe (line : String) : String × String :=
  (String.mk (line.data.takeWhile (fun c => c ≠ '|')),
   String.mk ((line.data.dropWhile (fun c => c ≠ '|')).tail))

/-- Digit-string accumulator for Python `int(...)`: digits with single
underscores allowed between digits (PEP 515); `prevDigit` records
whether the previous character was a digit. -/
def pyDigitsAux : List Char → Nat → Bool → Option Nat
  | [], acc, prevDigit => if prevDigit then some acc else none
  | c :: rest, acc, prevDigit =>
    if c.isDigit then pyDigitsAux rest (acc * 10 + (c.toNat - '0'.toNat)) true
    else if c = '_' && prevDigit then pyDigitsAux rest acc false
    else none

/-- Python `int(s)` on ASCII text: optional surrounding whitespace, an
optional sign, then at least one digit (underscores permitted between
digits).  `none` models the `ValueError` branch. -/
def pyInt (s : String) : Option Int :=
  match (pyStrip s).data with
  | '+' :: rest => (pyDigitsAux rest 0 false).map Int.ofNat
  | '-' :: rest => (pyDigitsAux rest 0 false).map (fun n => -(n : Int))
  | l => (pyDigitsAux l 0 false).map Int.ofNat

/-- The name of a label, as the script reads it:
`label.get("name") if isinstance(label, dict) else label`. -/
def labelNameOf : Label → Option String
  | Label.obj n => n
  | Label.txt s => some s

/-- The mutable state of the selection loop:
`solved_issues`, `pr_labels` and `label_seen`
(src/pr-buddy.py lines 183-185; the set `label_seen` is modelled as the
list of names added so far, newest first, with membership testing). -/
structure SelState where
  solved_issues : List String
  pr_labels : List String
  label_seen : List String
deriving Repr, DecidableEq

/-- One turn of the label-aggregation inner loop (src/pr-buddy.py
lines 219-223): take the label's name; if the name is truthy (present
and non-empty) and not yet seen, record it in `label_seen` and append
it to `pr_labels`. -/
def labelStep (st : SelState) (label : Label) : SelState :=
  match labelNameOf label with
  | none => st
  | some name =>
    if name ≠ "" && !(st.label_seen.contains name) then
      { st with pr_labels := st.pr_labels ++ [name],
                label_seen := name :: st.label_seen }
    else st

/-- The label-aggregation inner loop over all labels of the resolved
issue (src/pr-buddy.py lines 219-223). -/
def processLabels (labels : List Label) (st : SelState) : SelState :=
  labels.foldl labelStep st

/-- One iteration of the selection loop (src/pr-buddy.py lines
202-223): lines without `|` are skipped; otherwise the line is split at
the first `|`, the number token is stripped of whitespace and leading
`#`, the title is stripped; if both tokens are non-empty the formatted
reference is appended to `solved_issues`, then the number token is
parsed as an integer (`continue` on `ValueError`), the issue is looked
up by number (`continue` when absent), and its labels are aggregated. -/
def processLine (issues : List Issue) (st : SelState) (line : String) : SelState :=
  if hasPipe line then
    let parts := split1Pipe line
    let issue_number := lstripHash (pyStrip parts.1)
    let issue_title := pyStrip parts.2
    if issue_number ≠ "" && issue_title ≠ "" then
      let st' := { st with solved_issues :=
        st.solved_issues ++ ["- " ++ issue_title ++ " #" ++ issue_number] }
      match pyInt issue_number with
      | none => st'
      | some n =>
        match issues.find? (fun item => item.number = n) with
        | none => st'
        | some issue_data => processLabels issue_data.labels st'
    else st
  else st

/-- The whole selection step (src/pr-buddy.py lines 183-223): fold the
per-line processing over the selected lines, starting from empty
`solved_issues` / `pr_labels` / `label_seen`. -/
def processSelection (issues : List Issue) (lines : List String) : SelState :=
  lines.foldl (processLine issues) ⟨[], [], []⟩

/-- Python `str.splitlines()` (ASCII line breaks `\n`, `\r`, `\r\n`). -/
def pySplitLinesAux : List Char → List Char → List String
  | [], acc => if acc.isEmpty then [] else [String.mk acc.reverse]
  | '\r' :: '\n' :: rest, acc => String.mk acc.reverse :: pySplitLinesAux rest []
  | '\r' :: rest, acc => String.mk acc.reverse :: pySplitLinesAux rest []
  | '\n' :: rest, acc => String.mk acc.reverse :: pySplitLinesAux rest []
  | c :: rest, acc => pySplitLinesAux rest (c :: acc)

/-- Python `s.splitlines()`. -/
def pySplitLines (s : String) : List String :=
  pySplitLinesAux s.data []

/-- The selected lines handed to the parsing loop (src/pr-buddy.py
lines 198-200): when the fuzzy selector exits with status 0 and
produced output, its stdout is split into lines and blank lines are
dropped; otherwise the selection is empty. -/
def selectedLines (returncode : Int) (stdout : String) : List String :=
  if returncode = 0 && stdout ≠ "" then
    (pySplitLines stdout).filter (fun line => pyStrip line ≠ "")
  else []

/-- Dictionary lookup on a JSON object, as Python `d[k]` / `d.get(k)`
on the (unique-keyed) dictionaries produced by JSON parsing. -/
def jLookup (kvs : List (String × Json)) (k : String) : Option Json :=
  (kvs.find? (fun p => p.1 = k)).map (fun p => p.2)

/-- The envelope navigation
`data["candidates"][0]["content"]["parts"][0]["text"]`
(src/pr-buddy.py line 252): `some s` exactly when every subscript
succeeds and the final value is a string; any missing key, empty array,
or wrongly shaped value raises in Python (caught by the surrounding
`try`) and is `none` here.  A non-string `text` value also yields
`none`, since `json.loads` then raises a `TypeError` inside the same
`try`. -/
def extractGeneratedText : Json → Option String
  | Json.obj kvs =>
    match jLookup kvs "candidates" with
    | some (Json.arr (c0 :: _)) =>
      match c0 with
      | Json.obj ckvs =>
        match jLookup ckvs "content" with
        | some (Json.obj contkvs) =>
          match jLookup contkvs "parts" with
          | some (Json.arr (p0 :: _)) =>
            match p0 with
            | Json.obj pkvs =>
              match jLookup pkvs "text" with
              | some (Json.str s) => some s
              | _ => none
            | _ => none
          | _ => none
        | _ => none
      | _ => none
    | _ => none
  | _ => none

/-- The `try`/`except` around response parsing (src/pr-buddy.py lines
251-255): extract the nested text field and parse it as JSON; any
failure at either level lands in the `except` branch, which carries the
raw envelope `data` to the fatal `error(...)` call. -/
def handleGeminiResponse (loads : String → Option Json) (data : Json) :
    Except Json Json :=
  match extractGeneratedText data with
  | none => Except.error data
  | some txt =>
    match loads txt with
    | none => Except.error data
    | some parsed => Except.ok parsed

/-- Python `parsed.get(key, "")` (src/pr-buddy.py lines 257-258): the
value at `key`, or the empty string when the key is absent. -/
def jGetD (kvs : List (String × Json)) (k : String) : Json :=
  (jLookup kvs k).getD (Json.str "")

/-- How the script run ends after the diff has been fetched:
* `noDiffExit` — lines 76-78: print the
  `No differences found between ... Exiting.` notice and `sys.exit(0)`;
* `httpError` — lines 247-248: non-ok HTTP response, `error(...)`;
* `badResponse raw` — lines 251-255: envelope/JSON parse failure,
  `error(...)` echoing the raw envelope `raw` to stderr;
* `attributeCrash parsed` — lines 257-258 with a non-object `parsed`:
  `parsed.get` raises an uncaught `AttributeError`;
* `drafted title descr labels` — the suggested PR is printed with this
  title, body and aggregated labels. -/
inductive PostDiffOutcome where
  | noDiffExit : PostDiffOutcome
  | httpError : PostDiffOutcome
  | badResponse : Json → PostDiffOutcome
  | attributeCrash : Json → PostDiffOutcome
  | drafted : Json → Json → List String → PostDiffOutcome

/-- The process exit status for each outcome: `sys.exit(0)` for the
empty-diff notice, `sys.exit(1)` via `error(...)` for the fatal
branches, exit code 1 for an uncaught Python exception, and `none`
(the run continues to display / PR creation) for a drafted PR. -/
def PostDiffOutcome.exitStatus : PostDiffOutcome → Option Nat
  | PostDiffOutcome.noDiffExit => some 0
  | PostDiffOutcome.httpError => some 1
  | PostDiffOutcome.badResponse _ => some 1
  | PostDiffOutcome.attributeCrash _ => some 1
  | PostDiffOutcome.drafted _ _ _ => none

/-- Whether the outcome prints the `⚠️  No differences found ...`
notice (src/pr-buddy.py line 77). -/
def PostDiffOutcome.printsNoDiffNotice : PostDiffOutcome → Bool
  | PostDiffOutcome.noDiffExit => true
  | _ => false

/-- The raw envelope echoed to stderr by the fatal response-parse
branch (`error(f"Gemini did not return valid JSON. Got:\n{data}...")`,
src/pr-buddy.py line 255). -/
def PostDiffOutcome.stderrEnvelope : PostDiffOutcome → Option Json
  | PostDiffOutcome.badResponse raw => some raw
  | _ => none

/-- The PR draft (title, description) produced by the outcome, if any. -/
def PostDiffOutcome.draft : PostDiffOutcome → Option (Json × Json)
  | PostDiffOutcome.drafted t d _ => some (t, d)
  | _ => none

/-- The PR draft read off the parsed AI response (src/pr-buddy.py
lines 257-258): `pr_title = parsed.get("title", "")` and
`pr_body = parsed.get("description", "")`.  When `parsed` is not a
JSON object, `parsed.get` raises an uncaught `AttributeError`,
modelled as `none`. -/
def prDraftOfParsed : Json → Option (Json × Json)
  | Json.obj kvs => some (jGetD kvs "title", jGetD kvs "description")
  | _ => none

/-- The script from the diff check onward (src/pr-buddy.py lines
76-258), with the external world supplied as data: `diff_output` (the
stripped `git diff` output), the fetched issues, the fuzzy selector's
exit code and stdout, whether the Gemini HTTP response was ok, the
parsed response envelope, and the JSON parser.  The first component
records whether the POST to the Gemini API was issued. -/
def scriptAfterDiff (diff_output : String) (issues : List Issue)
    (fzfRc : Int) (fzfOut : String) (httpOk : Bool) (data : Json)
    (loads : String → Option Json) : Bool × PostDiffOutcome :=
  if diff_output = "" then (false, PostDiffOutcome.noDiffExit)
  else
    let sel := processSelection issues (selectedLines fzfRc fzfOut)
    if !httpOk then (true, PostDiffOutcome.httpError)
    else
      match handleGeminiResponse loads data with
      | Except.error raw => (true, PostDiffOutcome.badResponse raw)
      | Except.ok parsed =>
        match prDraftOfParsed parsed with
        | some (t, d) => (true, PostDiffOutcome.drafted t d sel.pr_labels)
        | none => (true, PostDiffOutcome.attributeCrash parsed)

/-! ### Specification-level descriptions of the selection loop

These definitions restate, directly from the per-line structure of the
loop, what each selected line contributes; the characterisation lemmas
below prove the folded loop equal to them. -/

/-- The formatted reference a single selected line contributes to
`solved_issues`: one entry when the line has a `|` and both tokens are
non-empty, nothing otherwise. -/
def lineRef (line : String) : List String :=
  if hasPipe line then
    let parts := split1Pipe line
    let issue_number := lstripHash (pyStrip parts.1)
    let issue_title := pyStrip parts.2
    if issue_number ≠ "" && issue_title ≠ "" then
      ["- " ++ issue_title ++ " #" ++ issue_number]
    else []
  else []

/-- The truthy label names of a label list, in source order: the names
that exist and are non-empty, i.e. the ones the inner loop of
src/pr-buddy.py lines 219-223 considers at all. -/
def truthyNames (labels : List Label) : List String :=
  (labels.filterMap labelNameOf).filter (fun s => s ≠ "")

/-- The stream of truthy label names a single selected line feeds into
the aggregation, in source order: non-empty when the line parses, its
number resolves to a fetched issue, and that issue has labels with
truthy names. -/
def lineLabelNames (issues : List Issue) (line : String) : List String :=
  if hasPipe line then
    let parts := split1Pipe line
    let issue_number := lstripHash (pyStrip parts.1)
    let issue_title := pyStrip parts.2
    if issue_number ≠ "" && issue_title ≠ "" then
      match pyInt issue_number with
      | none => []
      | some n =>
        match issues.find? (fun item => item.number = n) with
        | none => []
        | some issue_data => truthyNames issue_data.labels
    else []
  else []

/-- All references contributed by the selected lines, in order. -/
def refsOf (lines : List String) : List String :=
  (lines.map lineRef).flatten

/-- The full pre-deduplication stream of truthy label names, in the
order the loop encounters them. -/
def rawLabelNames (issues : List Issue) (lines : List String) : List String :=
  (lines.map (lineLabelNames issues)).flatten

/-- First-seen deduplication relative to an already-seen set: keep each
name the first time it appears and drop every later occurrence. -/
def firstDedupFrom (seen : List String) : List String → List String
  | [] => []
  | n :: rest =>
    if seen.contains n then firstDedupFrom seen rest
    else n :: firstDedupFrom (n :: seen) rest

/-! ### Characterisation of the selection loop -/

theorem firstDedupFrom_append (a b seen : List String) :
    firstDedupFrom seen (a ++ b) =
      firstDedupFrom seen a ++
        firstDedupFrom ((firstDedupFrom seen a).reverse ++ seen) b := by
  induction a generalizing seen with
  | nil => simp [firstDedupFrom]
  | cons n a' ih =>
    have hunf1 : firstDedupFrom seen ((n :: a') ++ b) =
        if seen.contains n then firstDedupFrom seen (a' ++ b)
        else n :: firstDedupFrom (n :: seen) (a' ++ b) := rfl
    have hunf2 : firstDedupFrom seen (n :: a') =
        if seen.contains n then firstDedupFrom seen a'
        else n :: firstDedupFrom (n :: seen) a' := rfl
    by_cases hm : n ∈ seen
    · rw [hunf1, hunf2, if_pos (List.elem_iff.mpr hm),
        if_pos (List.elem_iff.mpr hm), ih]
    · rw [hunf1, hunf2, if_neg (fun h => hm (List.elem_iff.mp h)),
        if_neg (fun h => hm (List.elem_iff.mp h)), ih (n :: seen)]
      simp [List.reverse_cons, List.append_assoc]

theorem mem_firstDedupFrom (x : String) (l seen : List String) :
    x ∈ firstDedupFrom seen l ↔ x ∈ l ∧ x ∉ seen := by
  induction l generalizing seen with
  | nil => simp [firstDedupFrom]
  | cons n rest ih =>
    have hunf : firstDedupFrom seen (n :: rest) =
        if seen.contains n then firstDedupFrom seen rest
        else n :: firstDedupFrom (n :: seen) rest := rfl
    by_cases hm : n ∈ seen
    · rw [hunf, if_pos (List.elem_iff.mpr hm), ih]
      simp only [List.mem_cons]
      constructor
      · rintro ⟨hx, hns⟩
        exact ⟨Or.inr hx, hns⟩
      · rintro ⟨hx | hx, hns⟩
        · exact absurd (hx ▸ hm) hns
        · exact ⟨hx, hns⟩
    · rw [hunf, if_neg (fun h => hm (List.elem_iff.mp h))]
      simp only [List.mem_cons, ih]
      constructor
      · rintro (rfl | ⟨hx, hns⟩)
        · exact ⟨Or.inl rfl, hm⟩
        · exact ⟨Or.inr hx, fun hxs => hns (Or.inr hxs)⟩
      · rintro ⟨hx | hx, hns⟩
        · exact Or.inl hx
        · by_cases hxn : x = n
          · exact Or.inl hxn
          · refine Or.inr ⟨hx, fun hor => ?_⟩
            rcases hor with h | h
            · exact hxn h
            · exact hns h

theorem nodup_firstDedupFrom (l seen : List String) :
    (firstDedupFrom seen l).Nodup := by
  induction l generalizing seen with
  | nil => simp [firstDedupFrom]
  | cons n rest ih =>
    have hunf : firstDedupFrom seen (n :: rest) =
        if seen.contains n then firstDedupFrom seen rest
        else n :: firstDedupFrom (n :: seen) rest := rfl
    by_cases hm : n ∈ seen
    · rw [hunf, if_pos (List.elem_iff.mpr hm)]
      exact ih seen
    · rw [hunf, if_neg (fun h => hm (List.elem_iff.mp h)), List.nodup_cons]
      refine ⟨fun hmem => ?_, ih (n :: seen)⟩
      exact ((mem_firstDedupFrom n rest (n :: seen)).mp hmem).2
        (List.mem_cons_self n seen)

/-- The inner label loop, characterised: it appends to `pr_labels` the
first-seen deduplication (relative to the current `label_seen`) of the
truthy names of the labels, and records those names as seen. -/
theorem processLabels_eq (labels : List Label) (st : SelState) :
    processLabels labels st =
      ⟨st.solved_issues,
       st.pr_labels ++ firstDedupFrom st.label_seen (truthyNames labels),
       (firstDedupFrom st.label_seen (truthyNames labels)).reverse ++
         st.label_seen⟩ := by
  induction labels generalizing st with
  | nil => simp [processLabels, truthyNames, firstDedupFrom]
  | cons lab rest ih =>
    have hcons : processLabels (lab :: rest) st =
        processLabels rest (labelStep st lab) := rfl
    cases hn : labelNameOf lab with
    | none =>
      have hstep : labelStep st lab = st := by simp [labelStep, hn]
      have htn : truthyNames (lab :: rest) = truthyNames rest := by
        simp [truthyNames, hn]
      rw [hcons, hstep, ih, htn]
    | some name =>
      by_cases he : name = ""
      · subst he
        have hstep : labelStep st lab = st := by simp [labelStep, hn]
        have htn : truthyNames (lab :: rest) = truthyNames rest := by
          simp [truthyNames, hn]
        rw [hcons, hstep, ih, htn]
      · have htn : truthyNames (lab :: rest) = name :: truthyNames rest := by
          simp [truthyNames, hn, he]
        have hunf : firstDedupFrom st.label_seen (name :: truthyNames rest) =
            if st.label_seen.contains name then
              firstDedupFrom st.label_seen (truthyNames rest)
            else name :: firstDedupFrom (name :: st.label_seen)
              (truthyNames rest) := rfl
        by_cases hm : name ∈ st.label_seen
        · have hstep : labelStep st lab = st := by
            simp [labelStep, hn, he, hm]
          rw [hcons, hstep, ih, htn, hunf,
            if_pos (List.elem_iff.mpr hm)]
        · have hstep : labelStep st lab =
              ⟨st.solved_issues, st.pr_labels ++ [name],
               name :: st.label_seen⟩ := by
            simp [labelStep, hn, he, hm]
          rw [hcons, hstep, ih, htn, hunf,
            if_neg (fun h => hm (List.elem_iff.mp h))]
          simp [List.append_assoc, List.reverse_cons]

/-- One loop iteration, characterised: the line's reference is appended
to `solved_issues`, and the line's truthy label-name stream is
first-seen deduplicated into `pr_labels` / `label_seen`. -/
theorem processLine_eq (issues : List Issue) (st : SelState) (line : String) :
    processLine issues st line =
      ⟨st.solved_issues ++ lineRef line,
       st.pr_labels ++ firstDedupFrom st.label_seen (lineLabelNames issues line),
       (firstDedupFrom st.label_seen (lineLabelNames issues line)).reverse ++
         st.label_seen⟩ := by
  by_cases hp : hasPipe line = true
  · by_cases h1 : lstripHash (pyStrip (split1Pipe line).1) = ""
    · simp [processLine, lineRef, lineLabelNames, hp, h1, firstDedupFrom]
    · by_cases h2 : pyStrip (split1Pipe line).2 = ""
      · simp [processLine, lineRef, lineLabelNames, hp, h1, h2,
          firstDedupFrom]
      · cases hpi : pyInt (lstripHash (pyStrip (split1Pipe line).1)) with
        | none =>
          simp [processLine, lineRef, lineLabelNames, hp, h1, h2, hpi,
            firstDedupFrom]
        | some n =>
          cases hf : issues.find? (fun item => item.number = n) with
          | none =>
            simp [processLine, lineRef, lineLabelNames, hp, h1, h2, hpi, hf,
              firstDedupFrom]
          | some issue_data =>
            simp only [processLine, lineRef, lineLabelNames, hp, h1, h2, hpi,
              hf, ne_eq, not_false_iff, and_self, if_true]
            rw [processLabels_eq]
            simp
  · simp [processLine, lineRef, lineLabelNames, hp, firstDedupFrom]

/-- The folded selection loop, characterised, for an arbitrary starting
state. -/
theorem foldl_processLine_eq (issues : List Issue) (lines : List String)
    (st : SelState) :
    List.foldl (processLine issues) st lines =
      ⟨st.solved_issues ++ refsOf lines,
       st.pr_labels ++ firstDedupFrom st.label_seen (rawLabelNames issues lines),
       (firstDedupFrom st.label_seen (rawLabelNames issues lines)).reverse ++
         st.label_seen⟩ := by
  induction lines generalizing st with
  | nil => simp [refsOf, rawLabelNames, firstDedupFrom]
  | cons line rest ih =>
    rw [List.foldl_cons, processLine_eq, ih]
    have ha : rawLabelNames issues (line :: rest) =
        lineLabelNames issues line ++ rawLabelNames issues rest := by
      simp [rawLabelNames]
    have hr : refsOf (line :: rest) = lineRef line ++ refsOf rest := by
      simp [refsOf]
    rw [ha, hr, firstDedupFrom_append]
    simp [List.append_assoc, List.reverse_append]

/-- The selection step, characterised: `solved_issues` is the ordered
list of per-line references, and `pr_labels` is the first-seen
deduplication of the raw label-name stream. -/
theorem processSelection_eq (issues : List Issue) (lines : List String) :
    processSelection issues lines =
      ⟨refsOf lines,
       firstDedupFrom [] (rawLabelNames issues lines),
       (firstDedupFrom [] (rawLabelNames issues lines)).reverse⟩ := by
  unfold processSelection
  rw [foldl_processLine_eq]
  simp

/-! ### Claims -/

/-- Claim C1: for every sequence of selected issues, when two or more
selected issues share a label name (the name occurs at least twice in
the raw label-name stream), the aggregated `pr_labels` list contains
that name exactly once; moreover `pr_labels` is exactly the first-seen
deduplication of the raw stream, so every name appears in the order it
is first encountered while iterating over the selected lines
(case-sensitive exact match). -/
theorem claim_c1_label_union_first_seen (issues : List Issue)
    (lines : List String) (name : String)
    (h : 2 ≤ (rawLabelNames issues lines).count name) :
    ((processSelection issues lines).pr_labels).count name = 1 ∧
    (processSelection issues lines).pr_labels =
      firstDedupFrom [] (rawLabelNames issues lines) := by
  have heq : (processSelection issues lines).pr_labels =
      firstDedupFrom [] (rawLabelNames issues lines) := by
    rw [processSelection_eq]
  refine ⟨?_, heq⟩
  rw [heq]
  have hpos : 0 < (rawLabelNames issues lines).count name :=
    lt_of_lt_of_le (by norm_num) h
  have hmem : name ∈ rawLabelNames issues lines :=
    List.count_pos_iff.mp hpos
  have hmem' : name ∈ firstDedupFrom [] (rawLabelNames issues lines) :=
    (mem_firstDedupFrom name _ []).mpr ⟨hmem, by simp⟩
  exact List.count_eq_one_of_mem (nodup_firstDedupFrom _ []) hmem'

/-- Witness for C1, on Scenario D: issues 1 and 2 both carry "bug" and
issue 2 also carries "urgent"; selecting both lines yields the label
list ["bug", "urgent"], with "bug" counted once. -/
theorem claim_c1_witness :
    2 ≤ (rawLabelNames
        [⟨1, "A", [Label.txt "bug"]⟩,
         ⟨2, "B", [Label.txt "bug", Label.txt "urgent"]⟩]
        ["#1 | A", "#2 | B"]).count "bug" ∧
    ((processSelection
        [⟨1, "A", [Label.txt "bug"]⟩,
         ⟨2, "B", [Label.txt "bug", Label.txt "urgent"]⟩]
        ["#1 | A", "#2 | B"]).pr_labels).count "bug" = 1 ∧
    (processSelection
        [⟨1, "A", [Label.txt "bug"]⟩,
         ⟨2, "B", [Label.txt "bug", Label.txt "urgent"]⟩]
        ["#1 | A", "#2 | B"]).pr_labels =
      firstDedupFrom [] (rawLabelNames
        [⟨1, "A", [Label.txt "bug"]⟩,
         ⟨2, "B", [Label.txt "bug", Label.txt "urgent"]⟩]
        ["#1 | A", "#2 | B"]) :=
  ⟨by decide,
   claim_c1_label_union_first_seen
     [⟨1, "A", [Label.txt "bug"]⟩,
      ⟨2, "B", [Label.txt "bug", Label.txt "urgent"]⟩]
     ["#1 | A", "#2 | B"] "bug" (by decide)⟩

/-- Counterexample to Claim C2 as stated: on the selected line
"#abc | T" (whose leading token "abc" does not parse as an integer) the
entry does contribute to the selection output: the formatted reference
"- T #abc" is appended to `solved_issues` before the integer conversion
is attempted, so the reference list is not empty. -/
theorem claim_c2_counterexample :
    lstripHash (pyStrip (split1Pipe "#abc | T").1) = "abc" ∧
    pyInt "abc" = none ∧
    (processSelection [] ["#abc | T"]).solved_issues = ["- T #abc"] ∧
    (processSelection [] ["#abc | T"]).solved_issues ≠ [] := by
  decide

/-- Claim C2 (amended): for every selected line whose leading token
does not parse as an integer, the run does not abort and the entry
contributes nothing to the label aggregation (`pr_labels` and
`label_seen` are unchanged), but its formatted reference is still
appended to `solved_issues`; processing of the remaining selected
lines continues from that state unchanged. -/
theorem claim_c2_nonint_skipped (issues : List Issue) (st : SelState)
    (line : String) (rest : List String)
    (hp : hasPipe line = true)
    (hn : lstripHash (pyStrip (split1Pipe line).1) ≠ "")
    (ht : pyStrip (split1Pipe line).2 ≠ "")
    (hint : pyInt (lstripHash (pyStrip (split1Pipe line).1)) = none) :
    processLine issues st line =
      ⟨st.solved_issues ++
         ["- " ++ pyStrip (split1Pipe line).2 ++ " #" ++
           lstripHash (pyStrip (split1Pipe line).1)],
       st.pr_labels, st.label_seen⟩ ∧
    List.foldl (processLine issues) st (line :: rest) =
      List.foldl (processLine issues)
        ⟨st.solved_issues ++
           ["- " ++ pyStrip (split1Pipe line).2 ++ " #" ++
             lstripHash (pyStrip (split1Pipe line).1)],
         st.pr_labels, st.label_seen⟩ rest := by
  have h1 : processLine issues st line =
      ⟨st.solved_issues ++
         ["- " ++ pyStrip (split1Pipe line).2 ++ " #" ++
           lstripHash (pyStrip (split1Pipe line).1)],
       st.pr_labels, st.label_seen⟩ := by
    simp [processLine, hp, hn, ht, hint]
  exact ⟨h1, by rw [List.foldl_cons, h1]⟩

/-- Witness for the amended C2, on the line "#abc | T" from the empty
state with no fetched issues and no remaining lines. -/
theorem claim_c2_witness :
    hasPipe "#abc | T" = true ∧
    lstripHash (pyStrip (split1Pipe "#abc | T").1) ≠ "" ∧
    pyStrip (split1Pipe "#abc | T").2 ≠ "" ∧
    pyInt (lstripHash (pyStrip (split1Pipe "#abc | T").1)) = none ∧
    (processLine [] ⟨[], [], []⟩ "#abc | T" =
      ⟨[] ++
         ["- " ++ pyStrip (split1Pipe "#abc | T").2 ++ " #" ++
           lstripHash (pyStrip (split1Pipe "#abc | T").1)],
       [], []⟩ ∧
    List.foldl (processLine []) ⟨[], [], []⟩ ["#abc | T"] =
      List.foldl (processLine [])
        ⟨[] ++
           ["- " ++ pyStrip (split1Pipe "#abc | T").2 ++ " #" ++
             lstripHash (pyStrip (split1Pipe "#abc | T").1)],
         [], []⟩ []) :=
  ⟨by decide, by decide, by decide, by decide,
   claim_c2_nonint_skipped [] ⟨[], [], []⟩ "#abc | T" []
     (by decide) (by decide) (by decide) (by decide)⟩

/-- Claim C3: a selected line without the "|" delimiter is silently
dropped: it leaves the loop state untouched, and the selection computed
with the malformed line present equals the selection computed with it
absent. -/
theorem claim_c3_missing_delimiter_dropped (issues : List Issue)
    (line : String) (h : hasPipe line = false) (st : SelState)
    (pre post : List String) :
    processLine issues st line = st ∧
    processSelection issues (pre ++ line :: post) =
      processSelection issues (pre ++ post) := by
  have h1 : ∀ s : SelState, processLine issues s line = s := by
    intro s
    simp [processLine, h]
  refine ⟨h1 st, ?_⟩
  unfold processSelection
  rw [List.foldl_append, List.foldl_append, List.foldl_cons, h1]

/-- Witness for C3: the line "no delimiter here" is dropped between two
well-formed lines. -/
theorem claim_c3_witness :
    hasPipe "no delimiter here" = false ∧
    (processLine [⟨1, "A", [Label.txt "bug"]⟩] ⟨[], [], []⟩
        "no delimiter here" = ⟨[], [], []⟩ ∧
    processSelection [⟨1, "A", [Label.txt "bug"]⟩]
        (["#1 | A"] ++ "no delimiter here" :: ["#2 | B"]) =
      processSelection [⟨1, "A", [Label.txt "bug"]⟩]
        (["#1 | A"] ++ ["#2 | B"])) :=
  ⟨by decide,
   claim_c3_missing_delimiter_dropped [⟨1, "A", [Label.txt "bug"]⟩]
     "no delimiter here" (by decide) ⟨[], [], []⟩ ["#1 | A"] ["#2 | B"]⟩

/-- Claim C4: for every issue list, a selection of zero chosen lines
produces an empty reference list and an empty label list. -/
theorem claim_c4_zero_selected (issues : List Issue) :
    (processSelection issues []).solved_issues = [] ∧
    (processSelection issues []).pr_labels = [] :=
  ⟨rfl, rfl⟩

/-- Claim C5 (Scenario A): with the single issue
number 1 / title "Fix crash" / labels ["bug"], selecting the line
"#1 | Fix crash" yields the reference list ["- Fix crash #1"] and the
label list ["bug"], whether the label is a plain text name or an
object with a name field. -/
theorem claim_c5_scenario_a :
    (processSelection [⟨1, "Fix crash", [Label.txt "bug"]⟩]
        ["#1 | Fix crash"]).solved_issues = ["- Fix crash #1"] ∧
    (processSelection [⟨1, "Fix crash", [Label.txt "bug"]⟩]
        ["#1 | Fix crash"]).pr_labels = ["bug"] ∧
    (processSelection [⟨1, "Fix crash", [Label.obj (some "bug")]⟩]
        ["#1 | Fix crash"]).solved_issues = ["- Fix crash #1"] ∧
    (processSelection [⟨1, "Fix crash", [Label.obj (some "bug")]⟩]
        ["#1 | Fix crash"]).pr_labels = ["bug"] := by
  decide

/-- Claim C6: when the diff between the branches is empty, the run
prints the no-differences notice and exits with status 0 without ever
issuing the POST to the Gemini API (the `apiCalled` component is
`false`). -/
theorem claim_c6_empty_diff_exit (issues : List Issue) (fzfRc : Int)
    (fzfOut : String) (httpOk : Bool) (data : Json)
    (loads : String → Option Json) :
    scriptAfterDiff "" issues fzfRc fzfOut httpOk data loads =
      (false, PostDiffOutcome.noDiffExit) ∧
    PostDiffOutcome.exitStatus PostDiffOutcome.noDiffExit = some 0 ∧
    PostDiffOutcome.printsNoDiffNotice PostDiffOutcome.noDiffExit = true := by
  refine ⟨?_, rfl, rfl⟩
  simp [scriptAfterDiff]

/-- Claim C7: when the response envelope lacks the nested text field,
or that text field is not valid JSON, the run is fatal: the outcome is
`badResponse data`, which exits with status 1, echoes the raw envelope
to the error stream, and produces no PR draft. -/
theorem claim_c7_parse_failure_fatal (diff : String) (issues : List Issue)
    (fzfRc : Int) (fzfOut : String) (data : Json)
    (loads : String → Option Json) (hd : diff ≠ "")
    (h : extractGeneratedText data = none ∨
      ∃ t, extractGeneratedText data = some t ∧ loads t = none) :
    scriptAfterDiff diff issues fzfRc fzfOut true data loads =
      (true, PostDiffOutcome.badResponse data) ∧
    PostDiffOutcome.exitStatus (PostDiffOutcome.badResponse data) = some 1 ∧
    PostDiffOutcome.stderrEnvelope (PostDiffOutcome.badResponse data) =
      some data ∧
    PostDiffOutcome.draft (PostDiffOutcome.badResponse data) = none := by
  have hh : handleGeminiResponse loads data = Except.error data := by
    rcases h with h | ⟨t, ht, hl⟩
    · simp [handleGeminiResponse, h]
    · simp [handleGeminiResponse, ht, hl]
  refine ⟨?_, rfl, rfl, rfl⟩
  simp [scriptAfterDiff, hd, hh]

/-- Witness for C7 (Scenario C): an envelope whose text field holds
"not json", with a JSON parser that rejects it. -/
theorem claim_c7_witness :
    ("x" : String) ≠ "" ∧
    (extractGeneratedText (Json.obj [("candidates", Json.arr
        [Json.obj [("content", Json.obj [("parts", Json.arr
          [Json.obj [("text", Json.str "not json")]])])]])]) = none ∨
      ∃ t, extractGeneratedText (Json.obj [("candidates", Json.arr
          [Json.obj [("content", Json.obj [("parts", Json.arr
            [Json.obj [("text", Json.str "not json")]])])]])]) = some t ∧
        (fun _ : String => (none : Option Json)) t = none) ∧
    (scriptAfterDiff "x" [] 0 "" true
        (Json.obj [("candidates", Json.arr
          [Json.obj [("content", Json.obj [("parts", Json.arr
            [Json.obj [("text", Json.str "not json")]])])]])])
        (fun _ => none) =
      (true, PostDiffOutcome.badResponse (Json.obj [("candidates", Json.arr
        [Json.obj [("content", Json.obj [("parts", Json.arr
          [Json.obj [("text", Json.str "not json")]])])]])])) ∧
    PostDiffOutcome.exitStatus (PostDiffOutcome.badResponse
      (Json.obj [("candidates", Json.arr
        [Json.obj [("content", Json.obj [("parts", Json.arr
          [Json.obj [("text", Json.str "not json")]])])]])])) = some 1 ∧
    PostDiffOutcome.stderrEnvelope (PostDiffOutcome.badResponse
      (Json.obj [("candidates", Json.arr
        [Json.obj [("content", Json.obj [("parts", Json.arr
          [Json.obj [("text", Json.str "not json")]])])]])])) =
      some (Json.obj [("candidates", Json.arr
        [Json.obj [("content", Json.obj [("parts", Json.arr
          [Json.obj [("text", Json.str "not json")]])])]])]) ∧
    PostDiffOutcome.draft (PostDiffOutcome.badResponse
      (Json.obj [("candidates", Json.arr
        [Json.obj [("content", Json.obj [("parts", Json.arr
          [Json.obj [("text", Json.str "not json")]])])]])])) = none) :=
  ⟨by decide, Or.inr ⟨"not json", rfl, rfl⟩,
   claim_c7_parse_failure_fatal "x" [] 0 ""
     (Json.obj [("candidates", Json.arr
       [Json.obj [("content", Json.obj [("parts", Json.arr
         [Json.obj [("text", Json.str "not json")]])])]])])
     (fun _ => none) (by decide) (Or.inr ⟨"not json", rfl, rfl⟩)⟩

/-- Claim C8: for every successfully parsed response object, the PR
title is the value of the "title" key and the PR description the value
of the "description" key, each defaulting to the empty string when
absent (`Option.getD` of the key lookup), and no other keys affect the
draft: two objects with the same "title" and "description" lookups
produce the same draft. -/
theorem claim_c8_draft_keys (diff : String) (issues : List Issue)
    (fzfRc : Int) (fzfOut : String) (data : Json)
    (loads : String → Option Json) (kvs kvs' : List (String × Json))
    (hd : diff ≠ "")
    (hok : handleGeminiResponse loads data = Except.ok (Json.obj kvs))
    (h1 : jLookup kvs' "title" = jLookup kvs "title")
    (h2 : jLookup kvs' "description" = jLookup kvs "description") :
    scriptAfterDiff diff issues fzfRc fzfOut true data loads =
      (true, PostDiffOutcome.drafted
        ((jLookup kvs "title").getD (Json.str ""))
        ((jLookup kvs "description").getD (Json.str ""))
        (processSelection issues (selectedLines fzfRc fzfOut)).pr_labels) ∧
    prDraftOfParsed (Json.obj kvs') = prDraftOfParsed (Json.obj kvs) := by
  constructor
  · simp [scriptAfterDiff, hd, hok, prDraftOfParsed, jGetD]
  · simp [prDraftOfParsed, jGetD, h1, h2]

/-- Witness for C8: the parsed object [("title", str "T")] — the extra
key "extra" in the second object does not change the draft, and the
absent "description" key defaults to the empty string. -/
theorem claim_c8_witness :
    ("x" : String) ≠ "" ∧
    handleGeminiResponse
      (fun _ => some (Json.obj [("title", Json.str "T")]))
      (Json.obj [("candidates", Json.arr
        [Json.obj [("content", Json.obj [("parts", Json.arr
          [Json.obj [("text", Json.str "payload")]])])]])]) =
      Except.ok (Json.obj [("title", Json.str "T")]) ∧
    jLookup [("extra", Json.num 7), ("title", Json.str "T")] "title" =
      jLookup [("title", Json.str "T")] "title" ∧
    jLookup [("extra", Json.num 7), ("title", Json.str "T")] "description" =
      jLookup [("title", Json.str "T")] "description" ∧
    (scriptAfterDiff "x" [] 1 "" true
        (Json.obj [("candidates", Json.arr
          [Json.obj [("content", Json.obj [("parts", Json.arr
            [Json.obj [("text", Json.str "payload")]])])]])])
        (fun _ => some (Json.obj [("title", Json.str "T")])) =
      (true, PostDiffOutcome.drafted
        ((jLookup [("title", Json.str "T")] "title").getD (Json.str ""))
        ((jLookup [("title", Json.str "T")] "description").getD (Json.str ""))
        (processSelection [] (selectedLines 1 "")).pr_labels) ∧
    prDraftOfParsed (Json.obj [("extra", Json.num 7),
        ("title", Json.str "T")]) =
      prDraftOfParsed (Json.obj [("title", Json.str "T")])) :=
  ⟨by decide, rfl, rfl, rfl,
   claim_c8_draft_keys "x" [] 1 ""
     (Json.obj [("candidates", Json.arr
       [Json.obj [("content", Json.obj [("parts", Json.arr
         [Json.obj [("text", Json.str "payload")]])])]])])
     (fun _ => some (Json.obj [("title", Json.str "T")]))
     [("title", Json.str "T")]
     [("extra", Json.num 7), ("title", Json.str "T")]
     (by decide) rfl rfl rfl⟩

/-- Claim C9: the selection step is deterministic: two runs on equal
issue lists and equal selected lines produce identical reference lists
and identical aggregated label lists, element for element. -/
theorem claim_c9_deterministic (issues1 issues2 : List Issue)
    (lines1 lines2 : List String) (h1 : issues1 = issues2)
    (h2 : lines1 = lines2) :
    (processSelection issues1 lines1).solved_issues =
      (processSelection issues2 lines2).solved_issues ∧
    (processSelection issues1 lines1).pr_labels =
      (processSelection issues2 lines2).pr_labels := by
  subst h1
  subst h2
  exact ⟨rfl, rfl⟩

/-- Witness for C9, on the Scenario A input. -/
theorem claim_c9_witness :
    [(⟨1, "Fix crash", [Label.txt "bug"]⟩ : Issue)] =
      [(⟨1, "Fix crash", [Label.txt "bug"]⟩ : Issue)] ∧
    ["#1 | Fix crash"] = ["#1 | Fix crash"] ∧
    ((processSelection [⟨1, "Fix crash", [Label.txt "bug"]⟩]
        ["#1 | Fix crash"]).solved_issues =
      (processSelection [⟨1, "Fix crash", [Label.txt "bug"]⟩]
        ["#1 | Fix crash"]).solved_issues ∧
    (processSelection [⟨1, "Fix crash", [Label.txt "bug"]⟩]
        ["#1 | Fix crash"]).pr_labels =
      (processSelection [⟨1, "Fix crash", [Label.txt "bug"]⟩]
        ["#1 | Fix crash"]).pr_labels) :=
  ⟨rfl, rfl,
   claim_c9_deterministic [⟨1, "Fix crash", [Label.txt "bug"]⟩]
     [⟨1, "Fix crash", [Label.txt "bug"]⟩]
     ["#1 | Fix crash"] ["#1 | Fix crash"] rfl rfl⟩

/-- Claim C10: when the fuzzy selector exits with a non-zero status the
run does not abort: the selection is treated as empty, so the reference
list and the label list stay empty, and (whenever the diff is
non-empty) the pipeline still proceeds to the API call. -/
theorem claim_c10_fzf_failure_ignored (issues : List Issue) (fzfRc : Int)
    (fzfOut : String) (diff : String) (httpOk : Bool) (data : Json)
    (loads : String → Option Json) (h : fzfRc ≠ 0) (hd : diff ≠ "") :
    selectedLines fzfRc fzfOut = [] ∧
    (processSelection issues (selectedLines fzfRc fzfOut)).solved_issues =
      [] ∧
    (processSelection issues (selectedLines fzfRc fzfOut)).pr_labels = [] ∧
    (scriptAfterDiff diff issues fzfRc fzfOut httpOk data loads).1 =
      true := by
  have hsel : selectedLines fzfRc fzfOut = [] := by
    simp [selectedLines, h]
  refine ⟨hsel, ?_, ?_, ?_⟩
  · rw [hsel]
    rfl
  · rw [hsel]
    rfl
  · unfold scriptAfterDiff
    rw [if_neg hd]
    cases httpOk with
    | false => rfl
    | true =>
      simp only [Bool.not_true, Bool.false_eq_true, if_false]
      cases hh : handleGeminiResponse loads data with
      | error raw => simp [hh]
      | ok parsed =>
        cases hpd : prDraftOfParsed parsed with
        | none => simp [hh, hpd]
        | some td => simp [hh, hpd]

/-- Witness for C10: selector exit code 1 with pending output, a
non-empty diff, and a failing HTTP response. -/
theorem claim_c10_witness :
    (1 : Int) ≠ 0 ∧
    ("x" : String) ≠ "" ∧
    (selectedLines 1 "ignored" = [] ∧
    (processSelection [] (selectedLines 1 "ignored")).solved_issues = [] ∧
    (processSelection [] (selectedLines 1 "ignored")).pr_labels = [] ∧
    (scriptAfterDiff "x" [] 1 "ignored" false Json.null
        (fun _ => none)).1 = true) :=
  ⟨by decide, by decide,
   claim_c10_fzf_failure_ignored [] 1 "ignored" "x" false Json.null
     (fun _ => none) (by decide) (by decide)⟩

end PrBuddy
